import Mathlib

/-!
Shallow embedding of the graph_types repository: the graph-list container
(`addGraph`, `removeGraph`, `modifyGraph` from `src/App.tsx`), the validated
input form (`formSchema`, `onSubmit` from `src/components/GraphForm.tsx`),
the graph card save path and the SVG render adapter
(`src/components/Graph.tsx`), and the logging/tracing facility
(`LoggingContext`: `log`, `logGroup`, `startOperation`, `endOperation`,
`hashString`).

Effectful constructs are made explicit: console output becomes a list of
`ConsoleEvent`s, React `useRef`/`useState` cells become explicit state
arguments and results, and the nondeterministic id generator
(`Date.now()` + `Math.random()`) becomes an oracle string argument.
-/

namespace GraphTypes

/-- A stored graph record, from the `Graph` type of `src/App.tsx`
(`{ id, graphviz, engine }`).  The form collects an optional title and
description (`GraphForm.tsx`) and the card props declare them optional
(`Graph.tsx`), so they are carried as `Option String`; records created by
`addGraph` never set them. -/
structure GraphRecord where
  id : String
  title : Option String := none
  description : Option String := none
  engine : String
  graphviz : String
deriving DecidableEq, Repr

/-- `addGraph` of `src/App.tsx`: builds a new record from the submitted
`{ graphviz, engine }` pair plus a freshly generated id
(`graph-${Date.now()}-${Math.random()...}`, here the oracle argument
`freshId`) and appends it: `setGraphs(prev => [...prev, newGraph])`. -/
def addGraph (graphviz engine freshId : String) (l : List GraphRecord) :
    List GraphRecord :=
  l ++ [{ id := freshId, engine := engine, graphviz := graphviz }]

/-- `removeGraph` of `src/App.tsx`:
`setGraphs(prev => prev.filter(graph => graph.id !== id))`. -/
def removeGraph (id : String) (l : List GraphRecord) : List GraphRecord :=
  l.filter (fun g => g.id != id)

/-- `modifyGraph` of `src/App.tsx`:
`setGraphs(prev => prev.map(graph => graph.id === id ?
{ ...graph, graphviz: updatedGraphviz } : graph))`.  The object spread
copies every other field unchanged. -/
def modifyGraph (id updatedGraphviz : String) (l : List GraphRecord) :
    List GraphRecord :=
  l.map (fun g => if g.id = id then { g with graphviz := updatedGraphviz } else g)

/-- The ids carried by a list of records. -/
def idsOf (l : List GraphRecord) : List String :=
  l.map (fun g => g.id)

/-- One user-driven mutation of the list container.  The `add` case carries
the oracle id the generator produced for that submission. -/
inductive ListOp where
  | add (graphviz engine freshId : String)
  | remove (id : String)
  | modify (id graphviz : String)
deriving DecidableEq, Repr

/-- Apply one container mutation. -/
def applyOp (op : ListOp) (l : List GraphRecord) : List GraphRecord :=
  match op with
  | .add gv en fid => addGraph gv en fid l
  | .remove id => removeGraph id l
  | .modify id gv => modifyGraph id gv l

/-- Run a sequence of mutations from a given list. -/
def runFrom (l : List GraphRecord) (ops : List ListOp) : List GraphRecord :=
  ops.foldl (fun acc op => applyOp op acc) l

/-- Run a sequence of mutations from the initial empty list
(`useState<Graph[]>([])`). -/
def run (ops : List ListOp) : List GraphRecord :=
  runFrom [] ops

/-- The ids the generator supplied to the `add` operations of a sequence. -/
def addIds (ops : List ListOp) : List String :=
  ops.filterMap (fun op => match op with
    | .add _ _ fid => some fid
    | _ => none)

lemma addIds_cons_add (gv en fid : String) (ops : List ListOp) :
    addIds (.add gv en fid :: ops) = fid :: addIds ops := by
  simp [addIds]

lemma addIds_cons_remove (id : String) (ops : List ListOp) :
    addIds (.remove id :: ops) = addIds ops := by
  simp [addIds]

lemma addIds_cons_modify (id gv : String) (ops : List ListOp) :
    addIds (.modify id gv :: ops) = addIds ops := by
  simp [addIds]

lemma idsOf_addGraph (gv en fid : String) (l : List GraphRecord) :
    idsOf (addGraph gv en fid l) = idsOf l ++ [fid] := by
  simp [idsOf, addGraph]

lemma idsOf_modifyGraph (id gv : String) (l : List GraphRecord) :
    idsOf (modifyGraph id gv l) = idsOf l := by
  induction l with
  | nil => rfl
  | cons g rest ih =>
    simp only [idsOf, modifyGraph, List.map_cons] at ih ⊢
    by_cases h : g.id = id <;> simp [h, ih]

lemma idsOf_removeGraph_sublist (id : String) (l : List GraphRecord) :
    (idsOf (removeGraph id l)).Sublist (idsOf l) := by
  exact List.Sublist.map _ (List.filter_sublist l)

lemma runFrom_ids_nodup (ops : List ListOp) (l : List GraphRecord)
    (h : (idsOf l ++ addIds ops).Nodup) : (idsOf (runFrom l ops)).Nodup := by
  induction ops generalizing l with
  | nil =>
    simpa [runFrom] using h.sublist (List.sublist_append_left _ _)
  | cons op rest ih =>
    have hstep : runFrom l (op :: rest) = runFrom (applyOp op l) rest := rfl
    rw [hstep]
    apply ih
    cases op with
    | add gv en fid =>
      have heq : idsOf (addGraph gv en fid l) ++ addIds rest
          = idsOf l ++ (fid :: addIds rest) := by
        rw [idsOf_addGraph, List.append_assoc, List.singleton_append]
      rw [applyOp, heq]
      rw [addIds_cons_add] at h
      exact h
    | remove id =>
      refine List.Nodup.sublist
        (List.Sublist.append (idsOf_removeGraph_sublist id l)
          (List.Sublist.refl _)) ?_
      rw [addIds_cons_remove] at h
      exact h
    | modify id gv =>
      rw [applyOp, idsOf_modifyGraph]
      rw [addIds_cons_modify] at h
      exact h

lemma idsOf_runFrom_subset (ops : List ListOp) (l : List GraphRecord) :
    idsOf (runFrom l ops) ⊆ idsOf l ++ addIds ops := by
  induction ops generalizing l with
  | nil => simp [runFrom]
  | cons op rest ih =>
    have hstep : runFrom l (op :: rest) = runFrom (applyOp op l) rest := rfl
    rw [hstep]
    refine (ih (applyOp op l)).trans ?_
    cases op with
    | add gv en fid =>
      rw [applyOp, idsOf_addGraph, addIds_cons_add]
      intro x hx
      rcases List.mem_append.1 hx with hx | hx
      · rcases List.mem_append.1 hx with hx | hx
        · exact List.mem_append.2 (Or.inl hx)
        · simp only [List.mem_singleton] at hx
          subst hx
          exact List.mem_append.2 (Or.inr (List.mem_cons_self _ _))
      · exact List.mem_append.2 (Or.inr (List.mem_cons_of_mem _ hx))
    | remove id =>
      rw [addIds_cons_remove]
      intro x hx
      rcases List.mem_append.1 hx with hx | hx
      · exact List.mem_append.2
          (Or.inl ((idsOf_removeGraph_sublist id l).subset hx))
      · exact List.mem_append.2 (Or.inr hx)
    | modify id gv =>
      rw [applyOp, idsOf_modifyGraph, addIds_cons_modify]
      intro x hx
      rcases List.mem_append.1 hx with hx | hx
      · exact List.mem_append.2 (Or.inl hx)
      · exact List.mem_append.2 (Or.inr hx)

lemma addIds_append (a b : List ListOp) :
    addIds (a ++ b) = addIds a ++ addIds b := by
  simp [addIds, List.filterMap_append]

/-- C1: over every sequence of add/update/remove operations whose generated
ids are pairwise fresh (the `Date.now()`+`Math.random()` oracle never
collides), the list reached after any prefix of the sequence carries
pairwise-distinct ids, and every id in the list was introduced by the add
that created its record (ids are never minted anywhere else, hence never
reused for another record). -/
theorem c1_ids_unique_at_all_times (ops pre suf : List ListOp)
    (hsplit : ops = pre ++ suf) (hfresh : (addIds ops).Nodup) :
    (idsOf (run pre)).Nodup ∧ idsOf (run pre) ⊆ addIds pre := by
  have hpre : (addIds pre).Nodup := by
    subst hsplit
    rw [addIds_append] at hfresh
    exact List.Nodup.sublist (List.sublist_append_left _ _) hfresh
  constructor
  · apply runFrom_ids_nodup
    simpa [idsOf] using hpre
  · have h := idsOf_runFrom_subset pre []
    simpa [run, idsOf] using h

/-- Witness for C1 at a concrete operation sequence. -/
theorem c1_ids_unique_at_all_times_witness :
    (idsOf (run [ListOp.add "digraph G { a -> b; }" "dot" "id-1",
                 ListOp.add "graph H {}" "circo" "id-2",
                 ListOp.remove "id-1"])).Nodup ∧
    idsOf (run [ListOp.add "digraph G { a -> b; }" "dot" "id-1",
                ListOp.add "graph H {}" "circo" "id-2",
                ListOp.remove "id-1"])
      ⊆ addIds [ListOp.add "digraph G { a -> b; }" "dot" "id-1",
                ListOp.add "graph H {}" "circo" "id-2",
                ListOp.remove "id-1"] :=
  c1_ids_unique_at_all_times
    ([ListOp.add "digraph G { a -> b; }" "dot" "id-1",
      ListOp.add "graph H {}" "circo" "id-2",
      ListOp.remove "id-1"] ++ [ListOp.modify "id-2" "graph H { h }"])
    [ListOp.add "digraph G { a -> b; }" "dot" "id-1",
     ListOp.add "graph H {}" "circo" "id-2",
     ListOp.remove "id-1"]
    [ListOp.modify "id-2" "graph H { h }"]
    rfl (by decide)

/-- C2: `modifyGraph id gv` keeps the list length, rewrites only the
`graphviz` field of the record whose id matches (its id, title, description
and engine are preserved), and returns every non-matching record
unchanged. -/
theorem c2_modifyGraph_frame (l : List GraphRecord) (id gv : String) (i : Nat)
    (g g' : GraphRecord) (hg : l[i]? = some g)
    (hg' : (modifyGraph id gv l)[i]? = some g') :
    (modifyGraph id gv l).length = l.length ∧
    g'.id = g.id ∧ g'.title = g.title ∧ g'.description = g.description ∧
    g'.engine = g.engine ∧
    (g.id = id → g' = { g with graphviz := gv }) ∧
    (g.id ≠ id → g' = g) := by
  have hlen : (modifyGraph id gv l).length = l.length := by
    simp [modifyGraph]
  have hval : g' = if g.id = id then { g with graphviz := gv } else g := by
    have hmap : (modifyGraph id gv l)[i]?
        = (l[i]?).map
            (fun g => if g.id = id then { g with graphviz := gv } else g) := by
      simp [modifyGraph]
    rw [hmap, hg] at hg'
    simpa using hg'.symm
  refine ⟨hlen, ?_, ?_, ?_, ?_, ?_, ?_⟩ <;>
    · by_cases hid : g.id = id <;> simp [hval, hid]

/-- Witness for C2 at a concrete two-record list. -/
theorem c2_modifyGraph_frame_witness :
    (modifyGraph "id-a" "digraph G { a }"
      [{ id := "id-a", engine := "dot", graphviz := "g1" },
       { id := "id-b", engine := "neato", graphviz := "g2" }]).length = 2 ∧
    ("id-a" : String) = "id-a" ∧ (none : Option String) = none ∧
    (none : Option String) = none ∧ ("dot" : String) = "dot" ∧
    (("id-a" : String) = "id-a" →
      ({ id := "id-a", engine := "dot", graphviz := "digraph G { a }" } :
        GraphRecord)
      = { id := "id-a", engine := "dot", graphviz := "digraph G { a }" }) ∧
    (("id-a" : String) ≠ "id-a" →
      ({ id := "id-a", engine := "dot", graphviz := "digraph G { a }" } :
        GraphRecord)
      = { id := "id-a", engine := "dot", graphviz := "g1" }) :=
  c2_modifyGraph_frame
    [{ id := "id-a", engine := "dot", graphviz := "g1" },
     { id := "id-b", engine := "neato", graphviz := "g2" }]
    "id-a" "digraph G { a }" 0
    { id := "id-a", engine := "dot", graphviz := "g1" }
    { id := "id-a", engine := "dot", graphviz := "digraph G { a }" }
    (by decide) (by decide)

/-- C3: `removeGraph id` keeps exactly the records whose id differs from
`id`; it is the identity when no record carries `id`, and applying it twice
equals applying it once. -/
theorem c3_removeGraph_idempotent (l : List GraphRecord) (id : String) :
    removeGraph id (removeGraph id l) = removeGraph id l ∧
    ((∀ g ∈ l, g.id ≠ id) → removeGraph id l = l) ∧
    (∀ g, g ∈ removeGraph id l ↔ g ∈ l ∧ g.id ≠ id) := by
  refine ⟨?_, ?_, ?_⟩
  · simp [removeGraph, List.filter_filter]
  · intro h
    apply List.filter_eq_self.2
    intro g hgl
    simpa using h g hgl
  · intro g
    simp [removeGraph, List.mem_filter, bne_iff_ne]

/-- Witness for C3 at a concrete two-record list: deleting `id-1` twice
equals deleting it once, and deleting an absent id is a no-op. -/
theorem c3_removeGraph_idempotent_witness :
    (removeGraph "id-1"
       (removeGraph "id-1"
         [{ id := "id-1", engine := "dot", graphviz := "g1" },
          { id := "id-2", engine := "circo", graphviz := "g2" }])
     = removeGraph "id-1"
         [{ id := "id-1", engine := "dot", graphviz := "g1" },
          { id := "id-2", engine := "circo", graphviz := "g2" }]) ∧
    removeGraph "id-9"
        [{ id := "id-1", engine := "dot", graphviz := "g1" },
         { id := "id-2", engine := "circo", graphviz := "g2" }]
      = [{ id := "id-1", engine := "dot", graphviz := "g1" },
         { id := "id-2", engine := "circo", graphviz := "g2" }] :=
  ⟨(c3_removeGraph_idempotent
      [{ id := "id-1", engine := "dot", graphviz := "g1" },
       { id := "id-2", engine := "circo", graphviz := "g2" }] "id-1").1,
   (c3_removeGraph_idempotent
      [{ id := "id-1", engine := "dot", graphviz := "g1" },
       { id := "id-2", engine := "circo", graphviz := "g2" }] "id-9").2.1
     (by decide)⟩

/-- The eight engine names of `formSchema`'s `z.enum` in
`src/components/GraphForm.tsx`. -/
def engineNames : List String :=
  ["dot", "neato", "twopi", "circo", "fdp", "sfdp", "patchwork", "osage"]

/-- The raw values of the form's four fields. -/
structure FormInput where
  title : Option String := none
  description : Option String := none
  engine : String
  graphviz : String
deriving DecidableEq, Repr

/-- `formSchema` of `src/components/GraphForm.tsx`: `title` and
`description` are optional and unconstrained, `engine` must be one of the
eight enum members, `graphviz` must be at least 2 characters
(`z.string().min(2)`; JavaScript counts UTF-16 units, here characters,
which agree on the inputs of interest). -/
def formSchemaCheck (f : FormInput) : Bool :=
  engineNames.contains f.engine && decide (2 ≤ f.graphviz.length)

/-- Form submission: `form.handleSubmit(onSubmit)` runs `onSubmit` only
when the zod resolver accepts the values (the form library's documented
gating), and `onSubmit` forwards `{ graphviz, engine }` to `addGraph`
(title and description are not forwarded).  On a validation failure
nothing is added. -/
def submitForm (f : FormInput) (freshId : String) (l : List GraphRecord) :
    List GraphRecord :=
  if formSchemaCheck f then addGraph f.graphviz f.engine freshId l else l

/-- C4: submission appends exactly one complete record when and only when
validation passes, i.e. when the engine is one of the eight enum members
and the source text has at least 2 characters; otherwise the list is
untouched. -/
theorem c4_submit_iff_valid (f : FormInput) (freshId : String)
    (l : List GraphRecord) :
    (formSchemaCheck f = true ↔
      f.engine ∈ engineNames ∧ 2 ≤ f.graphviz.length) ∧
    (formSchemaCheck f = true →
      submitForm f freshId l
        = l ++ [{ id := freshId, engine := f.engine,
                  graphviz := f.graphviz }] ∧
      (submitForm f freshId l).length = l.length + 1) ∧
    (formSchemaCheck f = false → submitForm f freshId l = l) := by
  refine ⟨?_, ?_, ?_⟩
  · rw [formSchemaCheck, Bool.and_eq_true, decide_eq_true_iff]
    exact and_congr_left' List.elem_iff
  · intro h
    constructor
    · simp [submitForm, h, addGraph]
    · simp [submitForm, h, addGraph]
  · intro h
    simp [submitForm, h]

/-- Witness for C4: the valid input from the spec's example appends one
record, and the invalid one-character source `"x"` is blocked. -/
theorem c4_submit_iff_valid_witness :
    (formSchemaCheck
        { engine := "circo", graphviz := "digraph G { a -> b; }" } = true →
      submitForm { engine := "circo", graphviz := "digraph G { a -> b; }" }
          "id-1" []
        = [] ++ [{ id := "id-1", engine := "circo",
                   graphviz := "digraph G { a -> b; }" }] ∧
      (submitForm { engine := "circo", graphviz := "digraph G { a -> b; }" }
          "id-1" []).length = 0 + 1) ∧
    (formSchemaCheck { engine := "dot", graphviz := "x" } = false →
      submitForm { engine := "dot", graphviz := "x" } "id-2" [] = []) ∧
    formSchemaCheck
      { engine := "circo", graphviz := "digraph G { a -> b; }" } = true ∧
    formSchemaCheck { engine := "dot", graphviz := "x" } = false :=
  ⟨(c4_submit_iff_valid
      { engine := "circo", graphviz := "digraph G { a -> b; }" }
      "id-1" []).2.1,
   (c4_submit_iff_valid { engine := "dot", graphviz := "x" } "id-2" []).2.2,
   by decide, by decide⟩

/-- Local state of one graph card (`Graph.tsx`): the `isEditing` flag and
the edit buffer `editedGraphviz`. -/
structure CardState where
  isEditing : Bool
  editedGraphviz : String
deriving DecidableEq, Repr

/-- `handleSave` of `src/components/Graph.tsx`: commits the buffer through
`modifyGraph(id, editedGraphviz)` only when `editedGraphviz !== graphviz`,
then always `setIsEditing(false)`.  `graphviz` is the committed prop of the
card; the list is the container state the `modifyGraph` callback closes
over.  The buffer itself is not reset here. -/
def handleSave (id graphviz : String) (st : CardState)
    (l : List GraphRecord) : CardState × List GraphRecord :=
  let l' := if st.editedGraphviz ≠ graphviz
    then modifyGraph id st.editedGraphviz l
    else l
  ({ st with isEditing := false }, l')

/-- `handleEdit` of `src/components/Graph.tsx`: resets the buffer to the
committed value and enters editing. -/
def handleEdit (graphviz : String) (st : CardState) : CardState :=
  { st with isEditing := true, editedGraphviz := graphviz }

/-- The props of the `Svg` component. -/
structure SvgProps where
  graphviz : String
  engine : String
deriving DecidableEq, Repr

/-- The custom `memo` equality of `Svg` in `src/components/Graph.tsx`: the
memoized component re-renders exactly when this comparator returns
`false`. -/
def svgMemoEq (prevProps nextProps : SvgProps) : Bool :=
  prevProps.graphviz == nextProps.graphviz
    && prevProps.engine == nextProps.engine

/-- C5: saving always returns the card to viewing state; it calls
`modifyGraph` exactly when the buffer differs from the committed text.
With an unchanged buffer the list is untouched, so every record's `Svg`
props are unchanged and the memo comparator returns `true` (no re-render
of the SVG). -/
theorem c5_save_idempotent (id graphviz : String) (st : CardState)
    (l : List GraphRecord) :
    (handleSave id graphviz st l).1.isEditing = false ∧
    (st.editedGraphviz = graphviz → (handleSave id graphviz st l).2 = l) ∧
    (st.editedGraphviz ≠ graphviz →
      (handleSave id graphviz st l).2 = modifyGraph id st.editedGraphviz l) ∧
    (st.editedGraphviz = graphviz →
      ∀ g g', g ∈ l → g' ∈ (handleSave id graphviz st l).2 → g = g' →
        svgMemoEq { graphviz := g.graphviz, engine := g.engine }
          { graphviz := g'.graphviz, engine := g'.engine } = true) := by
  refine ⟨rfl, ?_, ?_, ?_⟩
  · intro h
    simp [handleSave, h]
  · intro h
    simp [handleSave, h]
  · intro _ g g' _ _ hgg
    subst hgg
    simp [svgMemoEq]

/-- Witness for C5: a concrete card whose buffer equals the committed text;
saving leaves the one-record list unchanged and exits editing. -/
theorem c5_save_idempotent_witness :
    (handleSave "id-1" "digraph G { a -> b; }"
        { isEditing := true, editedGraphviz := "digraph G { a -> b; }" }
        [{ id := "id-1", engine := "dot",
           graphviz := "digraph G { a -> b; }" }]).1.isEditing = false ∧
    (handleSave "id-1" "digraph G { a -> b; }"
        { isEditing := true, editedGraphviz := "digraph G { a -> b; }" }
        [{ id := "id-1", engine := "dot",
           graphviz := "digraph G { a -> b; }" }]).2
      = [{ id := "id-1", engine := "dot",
           graphviz := "digraph G { a -> b; }" }] :=
  ⟨(c5_save_idempotent "id-1" "digraph G { a -> b; }"
      { isEditing := true, editedGraphviz := "digraph G { a -> b; }" }
      [{ id := "id-1", engine := "dot",
         graphviz := "digraph G { a -> b; }" }]).1,
   (c5_save_idempotent "id-1" "digraph G { a -> b; }"
      { isEditing := true, editedGraphviz := "digraph G { a -> b; }" }
      [{ id := "id-1", engine := "dot",
         graphviz := "digraph G { a -> b; }" }]).2.1 rfl⟩

/-! ## Logging/tracing facility (`LoggingContext`) -/

/-- The five `LogCategory` members. -/
inductive LogCategory where
  | App
  | Graph
  | Svg
  | Form
  | System
deriving DecidableEq, Repr

/-- The four `LogLevel` members. -/
inductive LogLevel where
  | debug
  | info
  | warn
  | error
deriving DecidableEq, Repr

/-- The display name of a category. -/
def categoryName : LogCategory → String
  | .App => "App"
  | .Graph => "Graph"
  | .Svg => "Svg"
  | .Form => "Form"
  | .System => "System"

/-- The display name of a level. -/
def levelName : LogLevel → String
  | .debug => "debug"
  | .info => "info"
  | .warn => "warn"
  | .error => "error"

/-- `LoggingConfig` of the context: global enable flag, per-category and
per-level masks, group options. -/
structure LoggingConfig where
  enabled : Bool
  categories : LogCategory → Bool
  levels : LogLevel → Bool
  useGroups : Bool
  defaultCollapsed : Bool

/-- `defaultConfig`: everything on, groups on, collapsed by default. -/
def defaultConfig : LoggingConfig :=
  { enabled := true
    categories := fun _ => true
    levels := fun _ => true
    useGroups := true
    defaultCollapsed := true }

/-- The `data` argument of `log`: either a plain value or an object whose
entries are iterated with `Object.entries`. -/
inductive LogData where
  | obj (entries : List (String × String))
  | prim (value : String)
deriving DecidableEq, Repr

/-- One console call issued by the facility.  The `%c` style strings are
presentation only and are elided. -/
inductive ConsoleEvent where
  | group (text : String)
  | groupCollapsed (text : String)
  | groupEnd
  | line (text : String)
deriving DecidableEq, Repr

/-- `formatLogHeader`: `[timestamp] [category] [level] message`.  The
timestamp (`new Date().toISOString()...`) is the explicit `now`
argument. -/
def formatLogHeader (now : String) (category : LogCategory)
    (level : LogLevel) (message : String) : String :=
  "[" ++ now ++ "] [" ++ categoryName category ++ "] ["
    ++ levelName level ++ "] " ++ message

/-- Rendering of a data payload on a single console line. -/
def renderData : LogData → String
  | .obj entries =>
      String.intercalate ", " (entries.map (fun kv => kv.1 ++ ": " ++ kv.2))
  | .prim value => value

/-- `log` of the context: returns early with no output when the global flag,
the category or the level is off; otherwise emits the header line, with the
data payload either in a collapsed group (one line per object entry) or
inline, exactly as the source's branches do. -/
def logEvents (config : LoggingConfig) (now : String) (category : LogCategory)
    (level : LogLevel) (message : String) (data : Option LogData) :
    List ConsoleEvent :=
  if !config.enabled || !config.categories category || !config.levels level
  then []
  else
    let text := formatLogHeader now category level message
    match data with
    | some d =>
      if config.useGroups then
        ConsoleEvent.groupCollapsed text ::
          (match d with
           | .obj entries =>
               entries.map (fun kv => ConsoleEvent.line (kv.1 ++ ": " ++ kv.2))
           | .prim value => [ConsoleEvent.line value])
          ++ [ConsoleEvent.groupEnd]
      else
        [ConsoleEvent.line (text ++ " " ++ renderData d)]
    | none => [ConsoleEvent.line text]

/-- The provider's mutable state: the `config` `useState` cell and the
`activeGroups` ref. -/
structure LogCtxState where
  config : LoggingConfig
  activeGroups : List String

/-- A `log` call as seen from the provider: it reads `config` and writes
neither `config` nor `activeGroups`, which the state-passing form makes
explicit. -/
def logCall (st : LogCtxState) (now : String) (category : LogCategory)
    (level : LogLevel) (message : String) (data : Option LogData) :
    LogCtxState × List ConsoleEvent :=
  (st, logEvents st.config now category level message data)

/-- `toggleLogging`: flips the global `enabled` flag, all other settings
unchanged. -/
def toggleLogging (config : LoggingConfig) : LoggingConfig :=
  { config with enabled := !config.enabled }

/-- The options argument of `logGroup` (`collapsed`, `title`, `end`), with
the source's destructuring defaults applied via `getD`. -/
structure LogGroupOptions where
  collapsed : Option Bool := none
  title : Option String := none
  «end» : Bool := false
deriving DecidableEq, Repr

/-- `logGroup` of the context.  Suppressed entirely (no output, no state
change) when the global flag, category, level or `useGroups` is off.  An
`end` call pops the newest active group and issues one `console.groupEnd`,
but only when the stack is non-empty.  Otherwise it issues one
`console.group`/`console.groupCollapsed` and pushes a fresh group id
(`${category}-${level}-${Date.now()}`, the clock again being `now`).
The array's push/pop at the tail is modelled as cons/uncons at the head;
teardown emits one `groupEnd` per remaining entry, so the orientation is
unobservable. -/
def logGroup (config : LoggingConfig) (now : String) (category : LogCategory)
    (level : LogLevel) (options : LogGroupOptions)
    (activeGroups : List String) : List String × List ConsoleEvent :=
  if !config.enabled || !config.categories category || !config.levels level
      || !config.useGroups then
    (activeGroups, [])
  else if options.«end» then
    match activeGroups with
    | [] => (activeGroups, [])
    | _ :: rest => (rest, [ConsoleEvent.groupEnd])
  else
    let collapsed := options.collapsed.getD config.defaultCollapsed
    let title := options.title.getD ""
    let text := formatLogHeader now category level title
    let groupId := categoryName category ++ "-" ++ levelName level ++ "-" ++ now
    if collapsed then
      (groupId :: activeGroups, [ConsoleEvent.groupCollapsed text])
    else
      (groupId :: activeGroups, [ConsoleEvent.group text])

/-- The provider's unmount cleanup: one `console.groupEnd` per remaining
active group, then the stack is emptied. -/
def teardownGroups (activeGroups : List String) :
    List String × List ConsoleEvent :=
  ([], activeGroups.map (fun _ => ConsoleEvent.groupEnd))

/-- `startOperation` of `useComponentLogger`: returns `false` and touches
nothing when the operation is already active; otherwise opens a group
titled `Starting <operation>`, records the operation
(`activeOperations.set(operation, true)`, here membership in a list of
keys) and returns `true`. -/
def startOperation (config : LoggingConfig) (now : String)
    (category : LogCategory) (operation : String) (level : LogLevel)
    (activeGroups activeOperations : List String) :
    Bool × List String × List String × List ConsoleEvent :=
  if activeOperations.contains operation then
    (false, activeGroups, activeOperations, [])
  else
    (true,
     (logGroup config now category level
       { title := some ("Starting " ++ operation),
         collapsed := some config.defaultCollapsed } activeGroups).1,
     operation :: activeOperations,
     (logGroup config now category level
       { title := some ("Starting " ++ operation),
         collapsed := some config.defaultCollapsed } activeGroups).2)

/-- `endOperation` of `useComponentLogger`: returns `false` and touches
nothing when the operation is not active; otherwise optionally logs
`Result of <operation>:`, closes the group, deletes the operation and
returns `true`. -/
def endOperation (config : LoggingConfig) (now : String)
    (category : LogCategory) (operation : String) (level : LogLevel)
    (result : Option LogData) (activeGroups activeOperations : List String) :
    Bool × List String × List String × List ConsoleEvent :=
  if !(activeOperations.contains operation) then
    (false, activeGroups, activeOperations, [])
  else
    (true,
     (logGroup config now category level { «end» := true } activeGroups).1,
     activeOperations.erase operation,
     (match result with
      | some r =>
          logEvents config now category level
            ("Result of " ++ operation ++ ":") (some r)
      | none => [])
       ++ (logGroup config now category level { «end» := true } activeGroups).2)

/-- C6: a `log` call while the global flag is off, or while the category or
level is masked, emits nothing and leaves the provider state untouched;
toggling the flag twice restores the configuration exactly; toggling it
back on changes neither the category nor the level mask, and a call whose
category and level are enabled then produces output again. -/
theorem c6_disabled_log_silent (config : LoggingConfig) (gs : List String)
    (now : String) (category : LogCategory) (level : LogLevel)
    (message : String) (data : Option LogData) :
    (config.enabled = false ∨ config.categories category = false ∨
        config.levels level = false →
      logCall ⟨config, gs⟩ now category level message data
        = (⟨config, gs⟩, [])) ∧
    (logCall ⟨config, gs⟩ now category level message data).1 = ⟨config, gs⟩ ∧
    toggleLogging (toggleLogging config) = config ∧
    (config.enabled = false →
      (toggleLogging config).enabled = true ∧
      (toggleLogging config).categories = config.categories ∧
      (toggleLogging config).levels = config.levels ∧
      (config.categories category = true → config.levels level = true →
        logEvents (toggleLogging config) now category level message data
          ≠ [])) := by
  refine ⟨?_, rfl, ?_, ?_⟩
  · intro h
    have hevs : logEvents config now category level message data = [] := by
      rcases h with h | h | h <;> simp [logEvents, h]
    simp [logCall, hevs]
  · simp [toggleLogging]
  · intro hoff
    refine ⟨by simp [toggleLogging, hoff], rfl, rfl, ?_⟩
    intro hcat hlvl
    cases data with
    | none => simp [logEvents, toggleLogging, hoff, hcat, hlvl]
    | some d =>
      cases hug : config.useGroups <;>
        simp [logEvents, toggleLogging, hoff, hcat, hlvl, hug]

/-- Witness for C6 at a concrete disabled configuration. -/
theorem c6_disabled_log_silent_witness :
    logCall ⟨{ defaultConfig with enabled := false }, []⟩ "12:00:00"
        LogCategory.App LogLevel.info "Adding new graph" none
      = (⟨{ defaultConfig with enabled := false }, []⟩, []) ∧
    logEvents (toggleLogging { defaultConfig with enabled := false })
        "12:00:00" LogCategory.App LogLevel.info "Adding new graph" none
      ≠ [] :=
  ⟨(c6_disabled_log_silent { defaultConfig with enabled := false } []
      "12:00:00" LogCategory.App LogLevel.info "Adding new graph" none).1
      (Or.inl rfl),
   ((c6_disabled_log_silent { defaultConfig with enabled := false } []
      "12:00:00" LogCategory.App LogLevel.info "Adding new graph" none).2.2.2
      rfl).2.2.2 rfl rfl⟩

/-- C7: `startOperation` on an already-started operation returns `false`
with no output and no state change, and on an idle operation returns `true`
and marks it started; `endOperation` on a non-started operation returns
`false` with no output and no state change, and on a started operation
returns `true` and marks it idle again. -/
theorem c7_operation_no_reentry (config : LoggingConfig) (now : String)
    (category : LogCategory) (operation : String) (level : LogLevel)
    (result : Option LogData) (gs ops : List String) :
    (operation ∈ ops →
      startOperation config now category operation level gs ops
        = (false, gs, ops, [])) ∧
    (operation ∉ ops →
      (startOperation config now category operation level gs ops).1 = true ∧
      operation
        ∈ (startOperation config now category operation level gs ops).2.2.1) ∧
    (operation ∉ ops →
      endOperation config now category operation level result gs ops
        = (false, gs, ops, [])) ∧
    (operation ∈ ops →
      (endOperation config now category operation level result gs ops).1
          = true ∧
      (ops.Nodup →
        operation
          ∉ (endOperation config now category operation level result
              gs ops).2.2.1)) := by
  refine ⟨?_, ?_, ?_, ?_⟩
  · intro h
    simp [startOperation, h]
  · intro h
    refine ⟨by simp [startOperation, h], by simp [startOperation, h]⟩
  · intro h
    simp [endOperation, h]
  · intro h
    refine ⟨by simp [endOperation, h], ?_⟩
    intro hnd
    have hval : (endOperation config now category operation level result
        gs ops).2.2.1 = ops.erase operation := by
      simp [endOperation, h]
    rw [hval]
    intro hmem
    exact ((hnd.mem_erase_iff.1 hmem).1 rfl).elim

/-- Witness for C7: with one active operation `"renderSvg"`, a second
`startOperation` is refused, `endOperation` succeeds and clears it, and
`endOperation` on an idle operation `"edit"` is refused. -/
theorem c7_operation_no_reentry_witness :
    startOperation defaultConfig "12:00:00" LogCategory.Svg "renderSvg"
        LogLevel.info [] ["renderSvg"]
      = (false, [], ["renderSvg"], []) ∧
    (endOperation defaultConfig "12:00:00" LogCategory.Svg "renderSvg"
        LogLevel.info none [] ["renderSvg"]).1 = true ∧
    "renderSvg"
      ∉ (endOperation defaultConfig "12:00:00" LogCategory.Svg "renderSvg"
          LogLevel.info none [] ["renderSvg"]).2.2.1 ∧
    endOperation defaultConfig "12:00:00" LogCategory.Graph "edit"
        LogLevel.info none [] []
      = (false, [], [], []) :=
  ⟨(c7_operation_no_reentry defaultConfig "12:00:00" LogCategory.Svg
      "renderSvg" LogLevel.info none [] ["renderSvg"]).1 (by simp),
   ((c7_operation_no_reentry defaultConfig "12:00:00" LogCategory.Svg
      "renderSvg" LogLevel.info none [] ["renderSvg"]).2.2.2 (by simp)).1,
   ((c7_operation_no_reentry defaultConfig "12:00:00" LogCategory.Svg
      "renderSvg" LogLevel.info none [] ["renderSvg"]).2.2.2 (by simp)).2
     (by simp),
   (c7_operation_no_reentry defaultConfig "12:00:00" LogCategory.Graph
      "edit" LogLevel.info none [] []).2.2.1 (by simp)⟩

/-- Recognizer for a `console.group`/`console.groupCollapsed` call. -/
def isGroupOpen : ConsoleEvent → Bool
  | .group _ => true
  | .groupCollapsed _ => true
  | _ => false

/-- Recognizer for a `console.groupEnd` call. -/
def isGroupEnd : ConsoleEvent → Bool
  | .groupEnd => true
  | _ => false

/-- Number of `console.group`/`console.groupCollapsed` calls in a trace. -/
def countOpens (events : List ConsoleEvent) : Nat :=
  (events.filter isGroupOpen).length

/-- Number of `console.groupEnd` calls in a trace. -/
def countEnds (events : List ConsoleEvent) : Nat :=
  (events.filter isGroupEnd).length

lemma countOpens_append (a b : List ConsoleEvent) :
    countOpens (a ++ b) = countOpens a + countOpens b := by
  simp [countOpens, List.filter_append]

lemma countEnds_append (a b : List ConsoleEvent) :
    countEnds (a ++ b) = countEnds a + countEnds b := by
  simp [countEnds, List.filter_append]

/-- One `logGroup` invocation: its configuration, clock and arguments. -/
structure LogGroupCall where
  config : LoggingConfig
  now : String
  category : LogCategory
  level : LogLevel
  options : LogGroupOptions

/-- Run a sequence of `logGroup` calls against the `activeGroups` ref,
collecting the console trace. -/
def runLogGroups (calls : List LogGroupCall) (activeGroups : List String) :
    List String × List ConsoleEvent :=
  match calls with
  | [] => (activeGroups, [])
  | c :: rest =>
    ((runLogGroups rest
        (logGroup c.config c.now c.category c.level c.options
          activeGroups).1).1,
     (logGroup c.config c.now c.category c.level c.options activeGroups).2
       ++ (runLogGroups rest
            (logGroup c.config c.now c.category c.level c.options
              activeGroups).1).2)

lemma logGroup_balance (config : LoggingConfig) (now : String)
    (category : LogCategory) (level : LogLevel) (options : LogGroupOptions)
    (gs : List String) :
    (logGroup config now category level options gs).1.length
        + countEnds (logGroup config now category level options gs).2
      = gs.length
          + countOpens (logGroup config now category level options gs).2 ∧
    countEnds (logGroup config now category level options gs).2 ≤ gs.length
      ∧ countOpens (logGroup config now category level options gs).2 ≤ 1 := by
  unfold logGroup
  split
  · simp [countEnds, countOpens]
  · split
    · cases gs with
      | nil => simp [countEnds, countOpens]
      | cons g rest =>
        simp [countEnds, countOpens, isGroupEnd, isGroupOpen]
    · cases hcol : options.collapsed.getD config.defaultCollapsed <;>
        simp [countEnds, countOpens, isGroupEnd, isGroupOpen, hcol]

lemma runLogGroups_balance (calls : List LogGroupCall) (gs : List String) :
    (runLogGroups calls gs).1.length + countEnds (runLogGroups calls gs).2
      = gs.length + countOpens (runLogGroups calls gs).2 := by
  induction calls generalizing gs with
  | nil => simp [runLogGroups, countEnds, countOpens]
  | cons c rest ih =>
    have hstep := logGroup_balance c.config c.now c.category c.level
      c.options gs
    have hrec := ih (logGroup c.config c.now c.category c.level c.options
      gs).1
    simp only [runLogGroups, countEnds_append, countOpens_append]
    omega

/-- C10: over every sequence of `logGroup` calls starting from an empty
active-group stack, the trace never holds more `console.groupEnd` than
`console.group`/`console.groupCollapsed` calls, and the stack length
accounts exactly for the difference; an `end` call on the empty stack pops
nothing and emits nothing; each single call pushes exactly as many group
ids as group openings it emits; and provider teardown empties the stack,
closing exactly the remaining groups so the full trace ends balanced. -/
theorem c10_groups_never_overclosed (calls pre suf : List LogGroupCall)
    (_hsplit : calls = pre ++ suf) :
    countEnds (runLogGroups pre []).2 ≤ countOpens (runLogGroups pre []).2 ∧
    (runLogGroups pre []).1.length + countEnds (runLogGroups pre []).2
      = countOpens (runLogGroups pre []).2 ∧
    (∀ config now category level options, options.«end» = true →
      logGroup config now category level options [] = ([], [])) ∧
    (∀ config now category level options gs,
      (logGroup config now category level options gs).1.length
          + countEnds (logGroup config now category level options gs).2
        = gs.length
            + countOpens (logGroup config now category level options gs).2) ∧
    (teardownGroups (runLogGroups calls []).1).1 = [] ∧
    countEnds ((runLogGroups calls []).2
        ++ (teardownGroups (runLogGroups calls []).1).2)
      = countOpens (runLogGroups calls []).2 := by
  have hpre := runLogGroups_balance pre []
  have hcalls := runLogGroups_balance calls []
  simp only [List.length_nil, Nat.zero_add] at hpre hcalls
  refine ⟨by omega, by omega, ?_, ?_, rfl, ?_⟩
  · intro config now category level options hend
    unfold logGroup
    split
    · rfl
    · simp [hend]
  · intro config now category level options gs
    exact (logGroup_balance config now category level options gs).1
  · have hte : countEnds (teardownGroups (runLogGroups calls []).1).2
        = (runLogGroups calls []).1.length := by
      simp [teardownGroups, countEnds, isGroupEnd, List.filter_map]
    rw [countEnds_append, hte]
    omega

/-- Witness for C10 at a concrete call sequence: an open, a stray extra
`end`, and teardown after one more open. -/
theorem c10_groups_never_overclosed_witness :
    countEnds (runLogGroups
        [{ config := defaultConfig, now := "0", category := LogCategory.App,
           level := LogLevel.info, options := { title := some "g1" } },
         { config := defaultConfig, now := "1", category := LogCategory.App,
           level := LogLevel.info, options := { «end» := true } },
         { config := defaultConfig, now := "2", category := LogCategory.App,
           level := LogLevel.info, options := { «end» := true } }] []).2
      ≤ countOpens (runLogGroups
        [{ config := defaultConfig, now := "0", category := LogCategory.App,
           level := LogLevel.info, options := { title := some "g1" } },
         { config := defaultConfig, now := "1", category := LogCategory.App,
           level := LogLevel.info, options := { «end» := true } },
         { config := defaultConfig, now := "2", category := LogCategory.App,
           level := LogLevel.info, options := { «end» := true } }] []).2 :=
  (c10_groups_never_overclosed
    ([{ config := defaultConfig, now := "0", category := LogCategory.App,
        level := LogLevel.info, options := { title := some "g1" } },
      { config := defaultConfig, now := "1", category := LogCategory.App,
        level := LogLevel.info, options := { «end» := true } },
      { config := defaultConfig, now := "2", category := LogCategory.App,
        level := LogLevel.info, options := { «end» := true } }]
      ++ [{ config := defaultConfig, now := "3",
            category := LogCategory.App, level := LogLevel.info,
            options := { title := some "g2" } }])
    [{ config := defaultConfig, now := "0", category := LogCategory.App,
       level := LogLevel.info, options := { title := some "g1" } },
     { config := defaultConfig, now := "1", category := LogCategory.App,
       level := LogLevel.info, options := { «end» := true } },
     { config := defaultConfig, now := "2", category := LogCategory.App,
       level := LogLevel.info, options := { «end» := true } }]
    [{ config := defaultConfig, now := "3", category := LogCategory.App,
       level := LogLevel.info, options := { title := some "g2" } }]
    rfl).1

/-! ## Render adapter (`Svg` in `src/components/Graph.tsx`) -/

/-- What the external engine does on one call: `instance()` rejects, or
`viz.renderSVGElement` throws, or rendering succeeds with an SVG (stored
here as its markup).  The engine is an opaque black box, so its behaviour
is an oracle argument. -/
inductive EngineOutcome where
  | initFailure
  | renderFailure
  | success (svg : String)
deriving DecidableEq, Repr

/-- The `Svg` component's `useState` cells: `svg` (the rendered element,
kept as its markup, `none` initially) and `errorMsg` (the `error` state
variable). -/
structure SvgState where
  svg : Option String := none
  errorMsg : Option String := none
deriving DecidableEq, Repr

/-- `renderSvg` of `src/components/Graph.tsx`, as a state transformer plus
the promise outcome.  On success: `setSvg(renderedSvg); setError(null)`.
On a rendering failure the inner catch runs `setError("Error rendering
SVG")` and rethrows; the rethrown error lands in the outer catch, which
overwrites the error with `"Error initializing Viz.js"` and rethrows, so
the promise rejects.  On an initialization failure only the outer catch
runs.  `setSvg` is not called on either failure. -/
def renderSvg (outcome : EngineOutcome) (st : SvgState) :
    SvgState × Except String String :=
  match outcome with
  | .initFailure =>
      ({ st with errorMsg := some "Error initializing Viz.js" },
       Except.error "init failure")
  | .renderFailure =>
      let st1 : SvgState := { st with errorMsg := some "Error rendering SVG" }
      ({ st1 with errorMsg := some "Error initializing Viz.js" },
       Except.error "render failure")
  | .success svg =>
      ({ st with svg := some svg, errorMsg := none }, Except.ok svg)

/-- The component's display guard
`if (error || !svg || !svg.outerHTML) return <p>Error ...</p>`:
`true` means the inline error paragraph is shown and no SVG markup is
injected. -/
def displaysError (st : SvgState) : Bool :=
  match st.errorMsg, st.svg with
  | some _, _ => true
  | none, none => true
  | none, some s => s.isEmpty

/-- The component boundary: every caller runs
`renderSvg().catch(err => logger.error('Unhandled error in renderSvg',
err))`, so the rejection is logged through `log(Svg, error, ...)` and then
swallowed; the function always returns a state. -/
def renderSvgAtBoundary (config : LoggingConfig) (now : String)
    (outcome : EngineOutcome) (st : SvgState) :
    SvgState × List ConsoleEvent :=
  match renderSvg outcome st with
  | (st2, Except.ok _) => (st2, [])
  | (st2, Except.error e) =>
      (st2,
       logEvents config now LogCategory.Svg LogLevel.error
         "Unhandled error in renderSvg" (some (LogData.prim e)))

/-- C8: on either engine failure the adapter is left in an error state
(distinguishable from every success state, whose `errorMsg` is `none`), the
display guard shows the error paragraph and injects no SVG, the promise
rejects, and at the component boundary the rejection is swallowed — the
caller gets the same state back plus a log trace that is non-empty whenever
logging is enabled for the `Svg` category at `error` level. -/
theorem c8_render_failure_contained (config : LoggingConfig) (now : String)
    (outcome : EngineOutcome) (st : SvgState)
    (hfail : outcome = EngineOutcome.initFailure
      ∨ outcome = EngineOutcome.renderFailure) :
    (renderSvg outcome st).1.errorMsg.isSome = true ∧
    (∀ svg stOld, (renderSvg (EngineOutcome.success svg) stOld).1.errorMsg
      = none) ∧
    displaysError (renderSvg outcome st).1 = true ∧
    (∃ e, (renderSvg outcome st).2 = Except.error e) ∧
    (renderSvgAtBoundary config now outcome st).1 = (renderSvg outcome st).1 ∧
    (config.enabled = true → config.categories LogCategory.Svg = true →
      config.levels LogLevel.error = true →
      (renderSvgAtBoundary config now outcome st).2 ≠ []) := by
  rcases hfail with h | h <;> subst h
  · refine ⟨rfl, fun svg stOld => rfl, rfl, ⟨"init failure", rfl⟩, rfl, ?_⟩
    intro h1 h2 h3
    cases hug : config.useGroups <;>
      simp [renderSvgAtBoundary, renderSvg, logEvents, h1, h2, h3, hug]
  · refine ⟨rfl, fun svg stOld => rfl, rfl, ⟨"render failure", rfl⟩, rfl, ?_⟩
    intro h1 h2 h3
    cases hug : config.useGroups <;>
      simp [renderSvgAtBoundary, renderSvg, logEvents, h1, h2, h3, hug]

/-- Witness for C8: a rendering failure on a fresh card, under the default
configuration. -/
theorem c8_render_failure_contained_witness :
    (renderSvg EngineOutcome.renderFailure {}).1.errorMsg.isSome = true ∧
    displaysError (renderSvg EngineOutcome.renderFailure {}).1 = true ∧
    (renderSvgAtBoundary defaultConfig "12:00:00"
      EngineOutcome.renderFailure {}).2 ≠ [] :=
  ⟨(c8_render_failure_contained defaultConfig "12:00:00"
      EngineOutcome.renderFailure {} (Or.inr rfl)).1,
   (c8_render_failure_contained defaultConfig "12:00:00"
      EngineOutcome.renderFailure {} (Or.inr rfl)).2.2.1,
   (c8_render_failure_contained defaultConfig "12:00:00"
      EngineOutcome.renderFailure {} (Or.inr rfl)).2.2.2.2.2 rfl rfl rfl⟩

/-! ## `hashString` (`LoggingContext`) -/

/-- JavaScript's `ToInt32`: reduce an exact integer modulo `2^32` into
`[-2^31, 2^31)`.  Both `<< 5` and `& ` pass through this conversion. -/
def toInt32 (n : Int) : Int :=
  if n % 4294967296 < 2147483648 then n % 4294967296
  else n % 4294967296 - 4294967296

/-- One loop iteration of `hashString`:
`hash = ((hash << 5) - hash) + char; hash = hash & hash`.  The shift result
is an int32; the subtraction and addition are exact (the operands are far
below `2^53`); `hash & hash` is `ToInt32` of the sum. -/
def hashStep (hash : Int) (char : Nat) : Int :=
  toInt32 (toInt32 (hash * 32) - hash + char)

/-- `(hash).toString(16)`: hexadecimal digits, with a leading `-` for a
negative value, as JavaScript prints them. -/
def toHexString (n : Int) : String :=
  if n < 0 then "-" ++ (Nat.toDigits 16 n.natAbs).asString
  else (Nat.toDigits 16 n.toNat).asString

/-- `hashString` of `LoggingContext`: `'0'` for a falsy (empty) input,
otherwise the fold of `hashStep` over the character codes starting from 0,
printed in hexadecimal.  The JavaScript loop reads `charCodeAt(i)` (UTF-16
units); the fold is over the string's characters, which agree on the
basic multilingual plane. -/
def hashString (str : String) : String :=
  if str.isEmpty then "0"
  else toHexString (str.data.foldl (fun hash ch => hashStep hash ch.toNat) 0)

lemma toInt32_range (n : Int) :
    -2147483648 ≤ toInt32 n ∧ toInt32 n < 2147483648 := by
  have h0 : (0 : Int) ≤ n % 4294967296 :=
    Int.emod_nonneg n (by norm_num)
  have h1 : n % 4294967296 < 4294967296 :=
    Int.emod_lt_of_pos n (by norm_num)
  unfold toInt32
  split <;> omega

lemma hashFold_range (l : List Char) (h : Int)
    (hh : -2147483648 ≤ h ∧ h < 2147483648) :
    -2147483648 ≤ l.foldl (fun hash ch => hashStep hash ch.toNat) h ∧
      l.foldl (fun hash ch => hashStep hash ch.toNat) h < 2147483648 := by
  induction l generalizing h with
  | nil => simpa using hh
  | cons c rest ih => exact ih _ (toInt32_range _)

/-- C9: `hashString` is a total function on strings whose result is the
hexadecimal print of a value in the signed 32-bit range; the empty (falsy)
input yields `"0"`, and equal inputs yield equal hashes. -/
theorem c9_hashString_int32 (s : String) :
    (∃ v : Int, -2147483648 ≤ v ∧ v < 2147483648 ∧
      hashString s = toHexString v) ∧
    hashString "" = "0" ∧
    (∀ t : String, s = t → hashString s = hashString t) := by
  refine ⟨?_, rfl, ?_⟩
  · by_cases hs : s.isEmpty
    · refine ⟨0, by norm_num, by norm_num, ?_⟩
      simp [hashString, hs]
      rfl
    · refine ⟨s.data.foldl (fun hash ch => hashStep hash ch.toNat) 0,
        ?_, ?_, by simp [hashString, hs]⟩
      · exact (hashFold_range s.data 0 (by norm_num)).1
      · exact (hashFold_range s.data 0 (by norm_num)).2
  · intro t ht
    rw [ht]

/-- Witness for C9 at the string `"ab"` (hash value `0xc21`, within the
32-bit range). -/
theorem c9_hashString_int32_witness :
    hashString "ab" = hashString "ab" ∧ hashString "" = "0" :=
  ⟨(c9_hashString_int32 "ab").2.2 "ab" rfl, (c9_hashString_int32 "ab").2.1⟩

end GraphTypes
